import Mathlib

/-!
Shallow embedding of the matrirc bridge core (src/matrix/room_mappings.rs,
src/ircd/login.rs, src/matrix/proto.rs) and verification of the frozen
claims about it.

Conventions of the embedding:
* Rust `HashMap` is modelled as an association list with insert-replaces
  semantics (`insertA`) and first-match lookup (`List.lookup`).
* Matrix `OwnedUserId` / `OwnedRoomId` / display names are `String`s;
  the irc crate's `Message` payloads queued in `JoiningChan` are opaque
  and modelled as `String`s (their content is never inspected).
* `Arc<RwLock<...>>` state is modelled by explicit state passing: a
  mutating operation returns the new state next to its result.
* Network fetches (`room.members`, `room.display_name`) are passed in as
  `Except`-valued parameters; stream writes always succeed.
-/

namespace Matrirc

/-- Association-list insert with Rust `HashMap::insert` semantics:
replace the binding if the key is present, otherwise add it. -/
def insertA {β : Type} : List (String × β) → String → β → List (String × β)
  | [], k, v => [(k, v)]
  | (k', v') :: rest, k, v =>
    if k' = k then (k, v) :: rest else (k', v') :: insertA rest k v

/-- Character class of the sanitize regex `[^a-zA-Z_-]+`: `allowedChar c`
is true exactly when `c` is NOT matched, i.e. it is kept. -/
def allowedChar (c : Char) : Bool :=
  (('a' ≤ c && c ≤ 'z') || ('A' ≤ c && c ≤ 'Z')) || (c = '_' || c = '-')

/-- `SANITIZE.replace_all(&str, "")` for `SANITIZE = [^a-zA-Z_-]+`: the
regex deletes every maximal run of disallowed characters; since the
replacement is empty, deleting a run is deleting its characters one by
one, so the scanner drops each disallowed character and keeps the
rest. -/
def sanitizeChars : List Char → List Char
  | [] => []
  | c :: rest =>
    if allowedChar c then c :: sanitizeChars rest
    else sanitizeChars rest

/-- `fn sanitize(str) -> String` from room_mappings.rs: remove every
character outside `[a-zA-Z_-]` (regex replace-all of `[^a-zA-Z_-]+` by
the empty string). -/
def sanitize (s : String) : String := ⟨sanitizeChars s.data⟩

/-- `IrcMessageType` lives in src/ircd/proto.rs, which only flows through
the code modelled here unchanged; two representative constructors. -/
inductive IrcMessageType where
  | Privmsg
  | Notice
deriving DecidableEq, Repr

/-- Queued irc `Message` payloads are never inspected by the modelled
code; they are opaque strings. -/
abbrev Msg := String

/-- `struct Chan` from room_mappings.rs. -/
structure Chan where
  /-- channel name or query target -/
  target : String
  /-- matrix user -> nick for channel -/
  members : List (String × String)
  /-- list of irc names in channel -/
  names : List (String × String)
deriving DecidableEq, Repr

/-- `Chan::new` -/
def Chan.new (target : String) : Chan :=
  { target := target, members := [], names := [] }

/-- `Chan::get_member` -/
def Chan.get_member (c : Chan) (member_id : String) : Option String :=
  List.lookup member_id c.members

/-- `struct JoiningChan` from room_mappings.rs. -/
structure JoiningChan where
  chan : Chan
  /-- list of pending messages -/
  pending_messages : List Msg
deriving DecidableEq, Repr

/-- `JoiningChan::new` -/
def JoiningChan.new (target : String) : JoiningChan :=
  { chan := Chan.new target, pending_messages := [] }

/-- `enum RoomTargetInner` from room_mappings.rs. -/
inductive RoomTargetInner where
  /-- room maps to a query e.g. single other member (or alone!) -/
  | Query (c : Chan)
  /-- room maps to a chan, and irc side has it joined -/
  | Chan (c : Chan)
  /-- room maps to a chan, but we are not joined -/
  | LeftChan (c : Chan)
  /-- currently being joined chan -/
  | JoiningChan (j : JoiningChan)
deriving DecidableEq, Repr

/-- `struct RoomTarget`: the `Arc<RwLock<RoomTargetInner>>` is modelled
by passing the inner state explicitly. -/
structure RoomTarget where
  inner : RoomTargetInner
  error : Option String
deriving DecidableEq, Repr

def RoomTargetInner.isQuery : RoomTargetInner → Bool
  | .Query _ => true
  | _ => false

def RoomTargetInner.isChan : RoomTargetInner → Bool
  | .Chan _ => true
  | _ => false

def RoomTargetInner.isLeftChan : RoomTargetInner → Bool
  | .LeftChan _ => true
  | _ => false

def RoomTargetInner.isJoiningChan : RoomTargetInner → Bool
  | .JoiningChan _ => true
  | _ => false

/-- The `Chan` content carried by each state variant. -/
def RoomTargetInner.chanContent : RoomTargetInner → Matrirc.Chan
  | .Query c => c
  | .Chan c => c
  | .LeftChan c => c
  | .JoiningChan j => j.chan

/-- `RoomTarget::query` -/
def RoomTarget.query (target : String) : RoomTarget :=
  { inner := .Query { target := sanitize target, members := [], names := [] },
    error := none }

/-- `RoomTarget::chan` -/
def RoomTarget.chan (chan_name : String) : RoomTarget :=
  { inner := .JoiningChan (JoiningChan.new (sanitize chan_name)),
    error := none }

/-- `RoomTarget::join_chan`: the write lock is modelled by returning the
updated target next to the `Result`; the error branch leaves the state
untouched. -/
def RoomTarget.join_chan (t : RoomTarget) : Except String (List Msg) × RoomTarget :=
  match t.inner with
  | .JoiningChan j =>
    (.ok j.pending_messages, { t with inner := .Chan j.chan })
  | .LeftChan c =>
    (.ok [], { t with inner := .Chan c })
  | _ => (.error "invalid room target", t)

/-- `RoomTarget::set_error` -/
def RoomTarget.set_error (t : RoomTarget) (error : String) : RoomTarget :=
  { t with error := some error }

/-- `RoomTarget::target_of_room`: the
`room.members(RoomMemberships::ACTIVE).await?` network fetch is passed
in as an `Except`-valued argument (members are user-id strings). -/
def RoomTarget.target_of_room (name : String) (membersFetch : Except String (List String)) :
    Except String (RoomTarget × List String) :=
  match membersFetch with
  | .error e => .error e
  | .ok members =>
    match members.length with
    | 0 => .error ("Message in empty room " ++ name ++ "?")
    | 1 => .ok (RoomTarget.query name, members)
    | 2 => .ok (RoomTarget.query name, members)
    | _ => .ok (RoomTarget.chan name, members)

/-- `struct IrcMessage` from src/ircd/proto.rs (as used here); `from` is
a Lean keyword, hence `from_`. -/
structure IrcMessage where
  message_type : IrcMessageType
  from_ : String
  target : String
  message : String
deriving DecidableEq, Repr

/-- `RoomTarget::send_irc_message`, up to the final `irc.send(message)`:
the rendered `IrcMessage` is returned instead of being written to the
stream. `irc.nick` is the `ircNick` argument. -/
def RoomTarget.send_irc_message (t : RoomTarget) (ircNick : String)
    (message_type : IrcMessageType) (sender_id : String) (message : String) : IrcMessage :=
  match t.inner with
  | .Query target =>
    { message_type := message_type
      from_ := target.target
      target := ircNick
      message :=
        match List.lookup sender_id target.members with
        | some nick => "<" ++ nick ++ "> " ++ message
        | none => message }
  | .Chan chan =>
    { message_type := message_type
      from_ := chan.target
      target := ircNick
      message :=
        "<" ++ ((List.lookup sender_id chan.members).getD sender_id) ++ "> " ++ message }
  | .LeftChan chan =>
    { message_type := message_type
      from_ := chan.target
      target := ircNick
      message :=
        "<" ++ ((List.lookup sender_id chan.members).getD sender_id) ++ "> " ++ message }
  | .JoiningChan jchan =>
    { message_type := message_type
      from_ := jchan.chan.target
      target := ircNick
      message :=
        "<" ++ ((List.lookup sender_id jchan.chan.members).getD sender_id) ++ "> " ++ message }

/-- `struct MappingsInner` from room_mappings.rs: the two registry
tables (room id → target, target name → room id). -/
structure MappingsInner where
  rooms : List (String × RoomTarget)
  targets : List (String × String)
deriving DecidableEq, Repr

/-- `MappingsInner::default()` -/
def MappingsInner.default : MappingsInner := { rooms := [], targets := [] }

/-- The `let name = match room.display_name().await { ... }` step of
`try_room_target`: use the fetched display name, or fall back to the
room id on fetch failure. -/
def displayNameOr (roomId : String) (displayNameFetch : Except String String) : String :=
  match displayNameFetch with
  | .ok room_name => room_name
  | .error _ => roomId

/-- The write-lock block of `Mappings::try_room_target`: re-check for a
race, classify the room, and insert into both tables. Modelled as an
atomic step from registry state to registry state. -/
def writeSection (st : MappingsInner) (roomId name : String)
    (membersFetch : Except String (List String)) :
    Except String RoomTarget × MappingsInner :=
  match List.lookup roomId st.rooms with
  | some target => (.ok target, st)
  | none =>
    match RoomTarget.target_of_room name membersFetch with
    | .error e => (.error e, st)
    | .ok (target, _members) =>
      (.ok target,
       { rooms := insertA st.rooms roomId target,
         targets := insertA st.targets name roomId })

/-- `Mappings::try_room_target`, sequential form: fast-path read-lock
lookup, then display-name fallback, then the write-lock section. The
two network fetches are parameters. -/
def Mappings.try_room_target (st : MappingsInner) (roomId : String)
    (displayNameFetch : Except String String)
    (membersFetch : Except String (List String)) :
    Except String RoomTarget × MappingsInner :=
  match List.lookup roomId st.rooms with
  | some target => (.ok target, st)
  | none =>
    writeSection st roomId (displayNameOr roomId displayNameFetch) membersFetch

/-- `Mappings::room_target`: never fails; an internal error becomes a
synthetic error target. -/
def Mappings.room_target (st : MappingsInner) (roomId : String)
    (displayNameFetch : Except String String)
    (membersFetch : Except String (List String)) : RoomTarget × MappingsInner :=
  match Mappings.try_room_target st roomId displayNameFetch membersFetch with
  | (.ok target, st') => (target, st')
  | (.error e, st') =>
    ((RoomTarget.query "matrirc").set_error ("Could not find or create target: " ++ e), st')

/-- Local-protocol commands consumed by `auth_loop` in
src/ircd/login.rs (`Command::NICK/PASS/USER/CAP`, everything else is
`other`). -/
inductive IrcEvent where
  | NICK (nick : String)
  | PASS (pass : String)
  | USER (user arg1 arg2 : String)
  | CAP (a b : Option String) (code : Option String) (d : Option String)
  | PRIVMSG (target body : String)
  | other
deriving DecidableEq, Repr

/-- The `if let (Some(nick), Some(user), Some(pass))` check after the
collection loop of `auth_loop`; the matrix client produced downstream
is elided, the collected credentials are returned. -/
def authFinish (client_nick client_user client_pass : Option String) :
    Except String (String × String × String) :=
  match client_nick, client_user, client_pass with
  | some nick, some user, some pass => .ok (nick, user, pass)
  | _, _, _ => .error "nick or pass wasn't set for client!"

/-- The collection loop of `auth_loop`: the incoming stream is a list of
events (stream end = list end); `Command::USER` breaks out of the loop;
the `CAP 302` branch only writes to the stream (writes are modelled as
always succeeding, so it is a no-op here). -/
def authLoopAux : List IrcEvent → Option String → Option String → Option String →
    Except String (String × String × String)
  | [], client_nick, client_user, client_pass =>
    authFinish client_nick client_user client_pass
  | ev :: rest, client_nick, client_user, client_pass =>
    match ev with
    | .NICK nick => authLoopAux rest (some nick) client_user client_pass
    | .PASS pass => authLoopAux rest client_nick client_user (some pass)
    | .USER user _ _ => authFinish client_nick (some user) client_pass
    | .CAP _ _ _ _ => authLoopAux rest client_nick client_user client_pass
    | _ => authLoopAux rest client_nick client_user client_pass

/-- `auth_loop` from src/ircd/login.rs, registration-collection part. -/
def auth_loop (events : List IrcEvent) : Except String (String × String × String) :=
  authLoopAux events none none none

/-- Rust `str::splitn(n, sep)` on character lists: at most `n`
substrings, the last one carrying the unsplit remainder. -/
def splitnChars : Nat → Char → List Char → List (List Char)
  | 0, _, _ => []
  | 1, _, cs => [cs]
  | Nat.succ (Nat.succ n), sep, cs =>
    let pre := cs.takeWhile (fun c => c ≠ sep)
    match cs.dropWhile (fun c => c ≠ sep) with
    | [] => [pre]
    | _ :: tail => pre :: splitnChars (Nat.succ n) sep tail

/-- Rust `str::splitn` on strings. -/
def splitn (n : Nat) (sep : Char) (s : String) : List String :=
  (splitnChars n sep s.data).map (fun cs => ⟨cs⟩)

/-- One iteration of the `matrix_login_loop` event match: a `PRIVMSG`
whose body splits (bounded 3-way on a space) into exactly
`[homeserver, user, pass]` emits the "Attempting to login" notice and
attempts the login; any other event — including a `PRIVMSG` with fewer
tokens — emits nothing and attempts nothing, so the loop keeps waiting.
Returns (messages written to the stream, login attempt if any). -/
def matrix_login_step (event : IrcEvent) :
    List String × Option (String × String × String) :=
  match event with
  | .PRIVMSG _ body =>
    match splitn 3 ' ' body with
    | [homeserver, user, pass] =>
      (["Attempting to login to " ++ homeserver ++ " with " ++ user],
       some (homeserver, user, pass))
    | _ => ([], none)
  | _ => ([], none)

/-! Interleaving model for two concurrent `try_room_target` callers.
Each caller runs two atomic registry sections, exactly the two lock
scopes of the source: the read-lock fast-path lookup, then (after its
lock-free network fetches) the write-lock section `writeSection`.
A caller's program counter records where it is between the sections. -/

/-- Program counter of one `try_room_target` caller. -/
inductive CallerPC where
  /-- about to take the registry read lock for the fast-path lookup -/
  | start
  /-- fast path missed; display name and members fetched outside the
  lock; about to take the registry write lock -/
  | fetched
  /-- returned -/
  | done (r : Except String RoomTarget)

/-- One atomic section of a `try_room_target` caller resolving `roomId`
with its privately fetched `name` and `membersFetch`. -/
def callerStep (roomId name : String) (membersFetch : Except String (List String))
    (st : MappingsInner) (pc : CallerPC) : MappingsInner × CallerPC :=
  match pc with
  | .start =>
    match List.lookup roomId st.rooms with
    | some target => (st, .done (.ok target))
    | none => (st, .fetched)
  | .fetched =>
    let (r, st') := writeSection st roomId name membersFetch
    (st', .done r)
  | .done r => (st, .done r)

/-- Global state of the two-caller race: the shared registry and both
program counters. -/
structure RaceState where
  st : MappingsInner
  pc0 : CallerPC
  pc1 : CallerPC

/-- Run one atomic section of the scheduled caller (`false` = caller 0,
`true` = caller 1). Caller `i` resolves `roomId` with fetch results
`name_i` / `members_i`. -/
def raceStep (roomId name0 name1 : String)
    (members0 members1 : Except String (List String))
    (s : RaceState) (who : Bool) : RaceState :=
  if who then
    let (st', pc') := callerStep roomId name1 members1 s.st s.pc1
    { s with st := st', pc1 := pc' }
  else
    let (st', pc') := callerStep roomId name0 members0 s.st s.pc0
    { s with st := st', pc0 := pc' }

/-- Run a whole schedule (arbitrary interleaving of the two callers'
atomic sections). -/
def raceRun (roomId name0 name1 : String)
    (members0 members1 : Except String (List String))
    (sched : List Bool) (s : RaceState) : RaceState :=
  sched.foldl (raceStep roomId name0 name1 members0 members1) s

/-- `RoomTarget` states reachable through the repository's operations:
creation by `RoomTarget::query` / `RoomTarget::chan` (the only
constructors, both reached from `target_of_room` / `room_target`),
`set_error`, and the only state-mutating operation `join_chan` (both its
success and its error branch are covered by taking the returned state).
`send_irc_message` only takes the read lock and never writes. -/
inductive ReachableTarget : RoomTarget → Prop where
  | query (s : String) : ReachableTarget (RoomTarget.query s)
  | chan (s : String) : ReachableTarget (RoomTarget.chan s)
  | set_error (t : RoomTarget) (e : String) :
      ReachableTarget t → ReachableTarget (t.set_error e)
  | join (t : RoomTarget) :
      ReachableTarget t → ReachableTarget t.join_chan.2

/-- Did a `Result` succeed? -/
def exceptOk {ε α : Type} : Except ε α → Bool
  | .ok _ => true
  | .error _ => false

/-- Is the event a `Command::USER`? -/
def isUSER : IrcEvent → Bool
  | .USER _ _ _ => true
  | _ => false

/-- Is the event a `Command::NICK`? -/
def isNICK : IrcEvent → Bool
  | .NICK _ => true
  | _ => false

/-- Is the event a `Command::PASS`? -/
def isPASS : IrcEvent → Bool
  | .PASS _ => true
  | _ => false

/-- Exact one-to-one correspondence of the two registry tables: room-id
keys are unique, target-name keys are unique, and the room-id values of
the name table pair off exactly (as a permutation) with the room-id keys
of the room table — so every room entry has exactly one name entry and
vice versa, and no two rooms share a registered name. -/
def oneToOne (st : MappingsInner) : Prop :=
  (st.rooms.map Prod.fst).Nodup ∧
  (st.targets.map Prod.fst).Nodup ∧
  (st.targets.map Prod.snd).Perm (st.rooms.map Prod.fst)

/-- Invariant of the two-caller race for a room id that is unmapped in
`st₀`: either nothing has been inserted yet (registry untouched, nobody
has returned), or exactly one target `t` has been inserted for the room
and every caller that has returned got `t`. -/
def raceInv (st₀ : MappingsInner) (roomId : String) (s : RaceState) : Prop :=
  (s.st = st₀ ∧ (s.pc0 = .start ∨ s.pc0 = .fetched) ∧
    (s.pc1 = .start ∨ s.pc1 = .fetched)) ∨
  (∃ t, s.st.rooms = insertA st₀.rooms roomId t ∧
    (∀ r, s.pc0 = .done r → r = .ok t) ∧
    (∀ r, s.pc1 = .done r → r = .ok t))

/-!  ## Theorems  -/

/-- The scanner agrees with plain character filtering. -/
theorem sanitizeChars_eq_filter (l : List Char) : sanitizeChars l = l.filter allowedChar := by
  induction l with
  | nil => rfl
  | cons c rest ih =>
    by_cases h : allowedChar c = true
    · simp only [sanitizeChars, if_pos h, List.filter_cons_of_pos h, ih]
    · simp only [sanitizeChars, if_neg h, List.filter_cons_of_neg h, ih]

theorem sanitize_eq_filter (s : String) : sanitize s = ⟨s.data.filter allowedChar⟩ := by
  unfold sanitize
  rw [sanitizeChars_eq_filter]

/-- C8: `sanitize` keeps exactly the characters in {A–Z, a–z, underscore,
hyphen} and removes all others (so `sanitize "foo bar!" = "foobar"`),
and it is idempotent. -/
theorem c8_sanitize_filter_idempotent :
    (∀ s : String, sanitize s = ⟨s.data.filter allowedChar⟩) ∧
    (∀ c : Char, allowedChar c = true ↔
      (('A' ≤ c ∧ c ≤ 'Z') ∨ ('a' ≤ c ∧ c ≤ 'z') ∨ c = '_' ∨ c = '-')) ∧
    sanitize "foo bar!" = "foobar" ∧
    (∀ s : String, sanitize (sanitize s) = sanitize s) := by
  refine ⟨sanitize_eq_filter, ?_, by decide, ?_⟩
  · intro c
    unfold allowedChar
    simp only [Bool.or_eq_true, Bool.and_eq_true, decide_eq_true_eq]
    tauto
  · intro s
    rw [sanitize_eq_filter, sanitize_eq_filter]
    simp [List.filter_filter]

/-- C2: when the member fetch succeeds, `target_of_room` classifies by
active-member count: 0 members is an error, 1 or 2 members a Query
target, 3 or more a JoiningChan target (not a completed Chan). -/
theorem c2_target_of_room_classification (name : String) (members : List String) :
    (members.length = 0 →
      RoomTarget.target_of_room name (.ok members) =
        .error ("Message in empty room " ++ name ++ "?")) ∧
    (members.length = 1 ∨ members.length = 2 →
      ∃ t, RoomTarget.target_of_room name (.ok members) = .ok (t, members) ∧
        t.inner.isQuery = true) ∧
    (3 ≤ members.length →
      ∃ t, RoomTarget.target_of_room name (.ok members) = .ok (t, members) ∧
        t.inner.isJoiningChan = true ∧ t.inner.isChan = false) := by
  refine ⟨?_, ?_, ?_⟩
  · intro h
    simp [RoomTarget.target_of_room, h]
  · rintro (h | h) <;>
      exact ⟨RoomTarget.query name, by simp [RoomTarget.target_of_room, h], rfl⟩
  · intro h3
    obtain ⟨m, hm⟩ : ∃ m, members.length = m + 3 := ⟨members.length - 3, by omega⟩
    exact ⟨RoomTarget.chan name, by simp [RoomTarget.target_of_room, hm], rfl, rfl⟩

/-- Witness for C2 at a concrete 3-member room. -/
theorem c2_witness :
    ∃ t, RoomTarget.target_of_room "room" (.ok ["a", "b", "c"]) = .ok (t, ["a", "b", "c"]) ∧
      t.inner.isJoiningChan = true ∧ t.inner.isChan = false :=
  (c2_target_of_room_classification "room" ["a", "b", "c"]).2.2 (by decide)

/-- C3: `join_chan` succeeds exactly from the JoiningChan and LeftChan
states: from JoiningChan it returns the queued pending messages and
installs Chan, from LeftChan it returns the empty queue and installs
Chan, and on a Query or Chan target it fails with the invalid-state
error leaving the state unchanged. -/
theorem c3_join_chan_transitions (t : RoomTarget) :
    (exceptOk t.join_chan.1 = (t.inner.isJoiningChan || t.inner.isLeftChan)) ∧
    (∀ j, t.inner = .JoiningChan j →
      t.join_chan = (.ok j.pending_messages, { t with inner := .Chan j.chan })) ∧
    (∀ c, t.inner = .LeftChan c →
      t.join_chan = (.ok [], { t with inner := .Chan c })) ∧
    ((t.inner.isQuery || t.inner.isChan) = true →
      t.join_chan = (.error "invalid room target", t)) := by
  cases h : t.inner <;>
    simp [RoomTarget.join_chan, h, exceptOk, RoomTargetInner.isQuery,
      RoomTargetInner.isChan, RoomTargetInner.isLeftChan, RoomTargetInner.isJoiningChan]

/-- Witness for C3: joining a freshly created channel target. -/
theorem c3_witness :
    (RoomTarget.chan "x").join_chan =
      (.ok [], { inner := .Chan (Chan.new "x"), error := none }) := by
  have h := (c3_join_chan_transitions (RoomTarget.chan "x")).2.1
    (JoiningChan.new (sanitize "x")) rfl
  simpa using h

/-- C1: `room_target` never fails outwardly: whenever `try_room_target`
returns an error, it returns a synthetic Query-variant target named
"matrirc" whose error annotation describes the failure; a successful
resolution is passed through unchanged. -/
theorem c1_room_target_never_fails (st : MappingsInner) (roomId : String)
    (dn : Except String String) (mf : Except String (List String)) :
    (∀ e, (Mappings.try_room_target st roomId dn mf).1 = .error e →
      (Mappings.room_target st roomId dn mf).1 =
        { inner := .Query (Chan.new "matrirc"),
          error := some ("Could not find or create target: " ++ e) }) ∧
    (∀ t, (Mappings.try_room_target st roomId dn mf).1 = .ok t →
      (Mappings.room_target st roomId dn mf).1 = t) := by
  have hm : sanitize "matrirc" = "matrirc" := by decide
  constructor
  · intro e he
    rcases hp : Mappings.try_room_target st roomId dn mf with ⟨r, st'⟩
    rw [hp] at he
    unfold Mappings.room_target
    rw [hp]
    cases r with
    | ok t2 => simp at he
    | error e2 =>
      obtain rfl : e2 = e := by simpa using he
      simp [RoomTarget.query, RoomTarget.set_error, Chan.new, hm]
  · intro t ht
    rcases hp : Mappings.try_room_target st roomId dn mf with ⟨r, st'⟩
    rw [hp] at ht
    unfold Mappings.room_target
    rw [hp]
    cases r with
    | ok t2 =>
      obtain rfl : t2 = t := by simpa using ht
      rfl
    | error e2 => simp at ht

/-- Witness for C1: resolving an unknown room whose member fetch reports
an empty room yields the synthetic matrirc error target. -/
theorem c1_witness :
    (Mappings.try_room_target MappingsInner.default "!r:s" (.ok "n") (.ok [])).1 =
      .error "Message in empty room n?" ∧
    (Mappings.room_target MappingsInner.default "!r:s" (.ok "n") (.ok [])).1 =
      { inner := .Query (Chan.new "matrirc"),
        error := some "Could not find or create target: Message in empty room n?" } :=
  ⟨rfl,
   (c1_room_target_never_fails MappingsInner.default "!r:s" (.ok "n") (.ok [])).1
     "Message in empty room n?" rfl⟩

/-- C4 counterexample: in the Query state with a sender that is not in
the member map, `send_irc_message` renders the bare message text with no
sender label, not the raw remote member identifier label the claim
requires. -/
theorem c4_counterexample :
    ((RoomTarget.query "room").send_irc_message "me" .Privmsg "@a:b" "hi").message = "hi" ∧
    "hi" ≠ "<@a:b> hi" :=
  ⟨rfl, by decide⟩

/-- C4 amended: all four variants render the same message type, source
(`from`) and `target` fields, and the sender label is the target-scoped
nickname when the sender is in the member map and otherwise the raw
remote member identifier — except in the Query variant with an unknown
sender, where the message is rendered bare, with no sender label. -/
theorem c4_send_irc_message_rendering (t : RoomTarget) (ircNick : String)
    (mt : IrcMessageType) (sender msg : String) :
    (t.send_irc_message ircNick mt sender msg).message_type = mt ∧
    (t.send_irc_message ircNick mt sender msg).from_ = t.inner.chanContent.target ∧
    (t.send_irc_message ircNick mt sender msg).target = ircNick ∧
    ((List.lookup sender t.inner.chanContent.members).isSome = true ∨
        t.inner.isQuery = false →
      (t.send_irc_message ircNick mt sender msg).message =
        "<" ++ ((List.lookup sender t.inner.chanContent.members).getD sender) ++ "> " ++ msg) ∧
    (t.inner.isQuery = true → List.lookup sender t.inner.chanContent.members = none →
      (t.send_irc_message ircNick mt sender msg).message = msg) := by
  cases h : t.inner with
  | Query c =>
    cases hl : List.lookup sender c.members <;>
      simp [RoomTarget.send_irc_message, h, hl, RoomTargetInner.chanContent,
        RoomTargetInner.isQuery]
  | Chan c =>
    simp [RoomTarget.send_irc_message, h, RoomTargetInner.chanContent,
      RoomTargetInner.isQuery]
  | LeftChan c =>
    simp [RoomTarget.send_irc_message, h, RoomTargetInner.chanContent,
      RoomTargetInner.isQuery]
  | JoiningChan j =>
    simp [RoomTarget.send_irc_message, h, RoomTargetInner.chanContent,
      RoomTargetInner.isQuery]

/-- Witness for C4 amended: a JoiningChan target with an unknown sender
labels with the raw member id. -/
theorem c4_witness :
    ((RoomTarget.chan "room").send_irc_message "me" .Privmsg "@a:b" "hi").message =
      "<@a:b> hi" := by
  have h := (c4_send_irc_message_rendering (RoomTarget.chan "room") "me" .Privmsg
    "@a:b" "hi").2.2.2.1 (Or.inr rfl)
  simpa using h

/-- C7: a credential reply whose bounded 3-way split yields fewer than
three tokens is silently ignored by the login loop: nothing is written
to the stream and no login is attempted, so the loop keeps waiting. -/
theorem c7_malformed_reply_ignored (target body : String)
    (h : (splitn 3 ' ' body).length < 3) :
    matrix_login_step (.PRIVMSG target body) = ([], none) := by
  cases hs : splitn 3 ' ' body with
  | nil => simp [matrix_login_step, hs]
  | cons a l1 =>
    cases l1 with
    | nil => simp [matrix_login_step, hs]
    | cons b l2 =>
      cases l2 with
      | nil => simp [matrix_login_step, hs]
      | cons c l3 =>
        rw [hs] at h
        simp at h
        omega

/-- Witness for C7: a single-token reply is ignored. -/
theorem c7_witness : matrix_login_step (.PRIVMSG "matrirc" "singletoken") = ([], none) :=
  c7_malformed_reply_ignored "matrirc" "singletoken" (by decide)

/-- Generalized success characterization of the registration collection
loop: the username accumulator is `none` while the loop runs (only
`Command::USER` sets it, and that breaks out immediately). -/
theorem authLoopAux_ok_iff (evs : List IrcEvent) : ∀ n p : Option String,
    exceptOk (authLoopAux evs n none p) =
      (evs.any isUSER &&
        ((n.isSome || (evs.takeWhile (fun e => !isUSER e)).any isNICK) &&
          (p.isSome || (evs.takeWhile (fun e => !isUSER e)).any isPASS))) := by
  induction evs with
  | nil =>
    intro n p
    cases n <;> cases p <;> simp [authLoopAux, authFinish, exceptOk]
  | cons e rest ih =>
    intro n p
    cases e with
    | NICK s =>
      simp [authLoopAux, ih (some s) p, isUSER, isNICK, isPASS]
    | PASS s =>
      simp [authLoopAux, ih n (some s), isUSER, isNICK, isPASS]
    | USER u a1 a2 =>
      cases n <;> cases p <;>
        simp [authLoopAux, authFinish, exceptOk, isUSER, isNICK, isPASS]
    | CAP a b c d =>
      simp [authLoopAux, ih n p, isUSER, isNICK, isPASS]
    | PRIVMSG a b =>
      simp [authLoopAux, ih n p, isUSER, isNICK, isPASS]
    | other =>
      simp [authLoopAux, ih n p, isUSER, isNICK, isPASS]

/-- C6: the registration collection succeeds exactly when a USER event
arrives and both a NICK and a PASS event were consumed before it (in
either order): receipt of USER ends collection immediately (events after
the first USER are irrelevant, and a missing PASS or NICK at that moment
is fatal), and stream exhaustion without USER is fatal — no partial
result is produced in any failing case. -/
theorem c6_auth_loop_success_iff (evs : List IrcEvent) :
    exceptOk (auth_loop evs) =
      (evs.any isUSER &&
        ((evs.takeWhile (fun e => !isUSER e)).any isNICK &&
          (evs.takeWhile (fun e => !isUSER e)).any isPASS)) := by
  have h := authLoopAux_ok_iff evs none none
  simpa using h

/-- C10: in every target state reachable through the repository's
operations, a JoiningChan queue is empty — JoiningChan targets are
created with an empty queue and nothing ever appends to it — so
`join_chan` can only ever return an empty message vector. -/
theorem c10_pending_queue_always_empty (t : RoomTarget) (h : ReachableTarget t) :
    (∀ j, t.inner = .JoiningChan j → j.pending_messages = []) ∧
    (∀ msgs, t.join_chan.1 = .ok msgs → msgs = []) := by
  have main : ∀ u : RoomTarget, ReachableTarget u →
      ∀ j, u.inner = .JoiningChan j → j.pending_messages = [] := by
    intro u hu
    induction hu with
    | query s =>
      intro j hj
      simp [RoomTarget.query] at hj
    | chan s =>
      intro j hj
      simp [RoomTarget.chan] at hj
      rw [← hj]
      rfl
    | set_error u e hu ih =>
      intro j hj
      exact ih j hj
    | join u hu ih =>
      intro j hj
      rcases hi : u.inner with c | c | c | jc <;>
        simp [RoomTarget.join_chan, hi] at hj
  refine ⟨main t h, ?_⟩
  intro msgs hm
  rcases hi : t.inner with c | c | c | jc
  · simp [RoomTarget.join_chan, hi] at hm
  · simp [RoomTarget.join_chan, hi] at hm
  · simp [RoomTarget.join_chan, hi] at hm
    subst hm
    rfl
  · simp [RoomTarget.join_chan, hi] at hm
    subst hm
    exact main t h jc hi

/-- `List.lookup` misses exactly when the key is not among the keys. -/
theorem lookup_none_iff {β : Type} (k : String) : ∀ m : List (String × β),
    List.lookup k m = none ↔ k ∉ m.map Prod.fst
  | [] => by simp
  | (k', v') :: rest => by
    by_cases h : k = k'
    · subst h
      simp [List.lookup]
    · have hb : (k == k') = false := by simp [h]
      simp [List.lookup, hb, lookup_none_iff k rest, h]

/-- Looking up the freshly inserted key finds the inserted value. -/
theorem lookup_insertA {β : Type} (k : String) (v : β) : ∀ m : List (String × β),
    List.lookup k (insertA m k v) = some v
  | [] => by simp [insertA, List.lookup]
  | (k', v') :: rest => by
    by_cases h : k' = k
    · subst h
      simp [insertA, List.lookup]
    · have hb : (k == k') = false := by simp [Ne.symm h]
      simp [insertA, h, List.lookup, hb, lookup_insertA k v rest]

/-- Inserting a fresh key appends the binding. -/
theorem insertA_of_fresh {β : Type} (k : String) (v : β) : ∀ m : List (String × β),
    k ∉ m.map Prod.fst → insertA m k v = m ++ [(k, v)]
  | [], _ => by simp [insertA]
  | (k', v') :: rest, hk => by
    simp only [List.map_cons, List.mem_cons, not_or] at hk
    simp [insertA, Ne.symm hk.1, insertA_of_fresh k v rest hk.2]

/-- C5 counterexample: two distinct rooms whose display names collide
("n") leave the room table with two entries but the name table with one
(the second insert overwrites the first name binding), so the tables
are not in one-to-one correspondence. -/
theorem c5_counterexample :
    ¬ oneToOne (Mappings.try_room_target
      (Mappings.try_room_target MappingsInner.default "!a:s" (.ok "n") (.ok ["u"])).2
      "!b:s" (.ok "n") (.ok ["u"])).2 := by
  intro h
  have hst : (Mappings.try_room_target
      (Mappings.try_room_target MappingsInner.default "!a:s" (.ok "n") (.ok ["u"])).2
      "!b:s" (.ok "n") (.ok ["u"])).2 =
      { rooms := [("!a:s", RoomTarget.query "n"), ("!b:s", RoomTarget.query "n")],
        targets := [("n", "!b:s")] } := rfl
  rw [hst] at h
  have hlen := h.2.2.length_eq
  simp at hlen

/-- C5 amended: the one-to-one correspondence of the two registry tables
holds for the empty registry and is preserved by every resolution whose
effective display name is not already registered to another room; name
collisions are not deduplicated by the code and break it (see the
counterexample). -/
theorem c5_registry_correspondence (st : MappingsInner) (roomId : String)
    (dn : Except String String) (mf : Except String (List String))
    (h1 : oneToOne st)
    (h2 : List.lookup roomId st.rooms = none →
      displayNameOr roomId dn ∉ st.targets.map Prod.fst) :
    oneToOne (Mappings.try_room_target st roomId dn mf).2 ∧
    oneToOne MappingsInner.default := by
  refine ⟨?_, by simp [oneToOne, MappingsInner.default]⟩
  unfold Mappings.try_room_target
  cases hl : List.lookup roomId st.rooms with
  | some t => simpa using h1
  | none =>
    have hname := h2 hl
    have hkey : roomId ∉ st.rooms.map Prod.fst := (lookup_none_iff _ _).mp hl
    unfold writeSection
    rw [hl]
    cases htor : RoomTarget.target_of_room (displayNameOr roomId dn) mf with
    | error e => simpa using h1
    | ok p =>
      obtain ⟨target, ms⟩ := p
      obtain ⟨hn1, hn2, hperm⟩ := h1
      simp only
      rw [insertA_of_fresh roomId target st.rooms hkey,
        insertA_of_fresh (displayNameOr roomId dn) roomId st.targets hname]
      refine ⟨?_, ?_, ?_⟩
      · rw [List.map_append]
        exact ((List.perm_append_singleton _ _).nodup_iff).mpr
          (List.nodup_cons.mpr ⟨by simpa using hkey, hn1⟩)
      · rw [List.map_append]
        exact ((List.perm_append_singleton _ _).nodup_iff).mpr
          (List.nodup_cons.mpr ⟨by simpa using hname, hn2⟩)
      · rw [List.map_append, List.map_append]
        exact hperm.append_right _

/-- Witness for C5 amended: resolving one room in the empty registry
keeps the tables in exact correspondence. -/
theorem c5_witness :
    oneToOne (Mappings.try_room_target MappingsInner.default "!a:s" (.ok "n") (.ok ["u"])).2 ∧
    oneToOne MappingsInner.default :=
  c5_registry_correspondence MappingsInner.default "!a:s" (.ok "n") (.ok ["u"])
    (by simp [oneToOne, MappingsInner.default])
    (fun _ => by simp [MappingsInner.default])

/-- Witness for C10: a freshly created channel target has an empty queue
and joining it returns the empty vector. -/
theorem c10_witness :
    (RoomTarget.chan "c").join_chan.1 = .ok [] ∧
    (JoiningChan.new (sanitize "c")).pending_messages = [] :=
  ⟨rfl, (c10_pending_queue_always_empty (RoomTarget.chan "c")
    (ReachableTarget.chan "c")).1 (JoiningChan.new (sanitize "c")) rfl⟩

/-- One atomic section of either caller preserves the race invariant,
provided the room starts unmapped and both callers' classification
succeeds. -/
theorem raceStep_preserves (st₀ : MappingsInner) (roomId name0 name1 : String)
    (members0 members1 : Except String (List String))
    (hfresh : List.lookup roomId st₀.rooms = none)
    (h0 : ∃ p, RoomTarget.target_of_room name0 members0 = .ok p)
    (h1 : ∃ p, RoomTarget.target_of_room name1 members1 = .ok p)
    (s : RaceState) (hs : raceInv st₀ roomId s) (who : Bool) :
    raceInv st₀ roomId (raceStep roomId name0 name1 members0 members1 s who) := by
  cases who
  · rcases hs with ⟨hst, hp0, hp1⟩ | ⟨t, hrooms, hd0, hd1⟩
    · rcases hp0 with h | h
      · simp [raceStep, callerStep, h, hst, hfresh]
        exact Or.inl ⟨rfl, Or.inr rfl, hp1⟩
      · obtain ⟨⟨t0, ms0⟩, htor⟩ := h0
        simp [raceStep, callerStep, h, writeSection, hst, hfresh, htor]
        refine Or.inr ⟨t0, rfl, ?_, ?_⟩
        · intro r hr
          simpa using hr.symm
        · intro r hr
          rcases hp1 with h' | h' <;> rw [h'] at hr <;> simp at hr
    · have hlk : List.lookup roomId s.st.rooms = some t := by
        rw [hrooms]
        exact lookup_insertA roomId t st₀.rooms
      cases hpc : s.pc0 with
      | start =>
        simp [raceStep, callerStep, hpc, hlk]
        refine Or.inr ⟨t, hrooms, ?_, hd1⟩
        intro r hr
        simpa using hr.symm
      | fetched =>
        simp [raceStep, callerStep, hpc, writeSection, hlk]
        refine Or.inr ⟨t, hrooms, ?_, hd1⟩
        intro r hr
        simpa using hr.symm
      | done r0 =>
        simp [raceStep, callerStep, hpc]
        refine Or.inr ⟨t, hrooms, ?_, hd1⟩
        intro r hr
        obtain rfl : r0 = r := by simpa using hr
        exact hd0 _ hpc
  · rcases hs with ⟨hst, hp0, hp1⟩ | ⟨t, hrooms, hd0, hd1⟩
    · rcases hp1 with h | h
      · simp [raceStep, callerStep, h, hst, hfresh]
        exact Or.inl ⟨rfl, hp0, Or.inr rfl⟩
      · obtain ⟨⟨t1, ms1⟩, htor⟩ := h1
        simp [raceStep, callerStep, h, writeSection, hst, hfresh, htor]
        refine Or.inr ⟨t1, rfl, ?_, ?_⟩
        · intro r hr
          rcases hp0 with h' | h' <;> rw [h'] at hr <;> simp at hr
        · intro r hr
          simpa using hr.symm
    · have hlk : List.lookup roomId s.st.rooms = some t := by
        rw [hrooms]
        exact lookup_insertA roomId t st₀.rooms
      cases hpc : s.pc1 with
      | start =>
        simp [raceStep, callerStep, hpc, hlk]
        refine Or.inr ⟨t, hrooms, hd0, ?_⟩
        intro r hr
        simpa using hr.symm
      | fetched =>
        simp [raceStep, callerStep, hpc, writeSection, hlk]
        refine Or.inr ⟨t, hrooms, hd0, ?_⟩
        intro r hr
        simpa using hr.symm
      | done r1 =>
        simp [raceStep, callerStep, hpc]
        refine Or.inr ⟨t, hrooms, hd0, ?_⟩
        intro r hr
        obtain rfl : r1 = r := by simpa using hr
        exact hd1 _ hpc

/-- Any interleaving of the two callers' sections preserves the race
invariant. -/
theorem raceRun_preserves (st₀ : MappingsInner) (roomId name0 name1 : String)
    (members0 members1 : Except String (List String))
    (hfresh : List.lookup roomId st₀.rooms = none)
    (h0 : ∃ p, RoomTarget.target_of_room name0 members0 = .ok p)
    (h1 : ∃ p, RoomTarget.target_of_room name1 members1 = .ok p)
    (sched : List Bool) : ∀ s : RaceState, raceInv st₀ roomId s →
    raceInv st₀ roomId (raceRun roomId name0 name1 members0 members1 sched s) := by
  induction sched with
  | nil =>
    intro s hs
    exact hs
  | cons w rest ih =>
    intro s hs
    exact ih _ (raceStep_preserves st₀ roomId name0 name1 members0 members1
      hfresh h0 h1 s hs w)

/-- C9: for a never-before-seen room id, any interleaving of two
concurrent `try_room_target` callers (each running its read-lock check,
its lock-free fetches, then the write-lock re-check-and-insert section)
creates exactly one RoomTarget: the room table gains a single entry and
both callers, once they return, hold that same target. -/
theorem c9_concurrent_resolve_unique (st₀ : MappingsInner)
    (roomId name0 name1 : String) (members0 members1 : Except String (List String))
    (sched : List Bool) (r0 r1 : Except String RoomTarget)
    (hfresh : List.lookup roomId st₀.rooms = none)
    (h0 : ∃ p, RoomTarget.target_of_room name0 members0 = .ok p)
    (h1 : ∃ p, RoomTarget.target_of_room name1 members1 = .ok p)
    (hd0 : (raceRun roomId name0 name1 members0 members1 sched
      { st := st₀, pc0 := .start, pc1 := .start }).pc0 = .done r0)
    (hd1 : (raceRun roomId name0 name1 members0 members1 sched
      { st := st₀, pc0 := .start, pc1 := .start }).pc1 = .done r1) :
    ∃ t, r0 = .ok t ∧ r1 = .ok t ∧
      (raceRun roomId name0 name1 members0 members1 sched
        { st := st₀, pc0 := .start, pc1 := .start }).st.rooms =
        insertA st₀.rooms roomId t ∧
      List.lookup roomId (raceRun roomId name0 name1 members0 members1 sched
        { st := st₀, pc0 := .start, pc1 := .start }).st.rooms = some t := by
  have hinv := raceRun_preserves st₀ roomId name0 name1 members0 members1
    hfresh h0 h1 sched { st := st₀, pc0 := .start, pc1 := .start }
    (Or.inl ⟨rfl, Or.inl rfl, Or.inl rfl⟩)
  rcases hinv with ⟨_, hA0, _⟩ | ⟨t, hrooms, hok0, hok1⟩
  · rcases hA0 with h | h <;> rw [h] at hd0 <;> simp at hd0
  · refine ⟨t, hok0 r0 hd0, hok1 r1 hd1, hrooms, ?_⟩
    rw [hrooms]
    exact lookup_insertA roomId t st₀.rooms

/-- Witness for C9: a fully interleaved schedule where both callers miss
the fast path, caller 0 wins the write race and caller 1 observes the
winner's target on its re-check. -/
theorem c9_witness :
    ∃ t, (Except.ok (RoomTarget.query "na") : Except String RoomTarget) = .ok t ∧
      (Except.ok (RoomTarget.query "na") : Except String RoomTarget) = .ok t ∧
      (raceRun "!r:s" "na" "nb" (.ok ["u"]) (.ok ["u"]) [false, true, false, true]
        { st := MappingsInner.default, pc0 := .start, pc1 := .start }).st.rooms =
        insertA MappingsInner.default.rooms "!r:s" t ∧
      List.lookup "!r:s" (raceRun "!r:s" "na" "nb" (.ok ["u"]) (.ok ["u"])
        [false, true, false, true]
        { st := MappingsInner.default, pc0 := .start, pc1 := .start }).st.rooms = some t :=
  c9_concurrent_resolve_unique MappingsInner.default "!r:s" "na" "nb"
    (.ok ["u"]) (.ok ["u"]) [false, true, false, true]
    (.ok (RoomTarget.query "na")) (.ok (RoomTarget.query "na"))
    rfl ⟨(RoomTarget.query "na", ["u"]), rfl⟩ ⟨(RoomTarget.query "nb", ["u"]), rfl⟩
    rfl rfl

end Matrirc
